import Mathlib

/-!
Verification of the Harmonic Explorer particle simulator
(`src/harmonic_explorer.py`), a shallow embedding over the reals.

The Python core is a single class `HarmonicExplorer` holding
`p_radial`, `p_tangential`, particle count `N`, `damping`, hardcoded
constants `dt = 0.01`, `base_freq = 0.1`, `force_amplitude = 1.0`,
a clock `t`, and arrays `positions`, `velocities`.  The vectorized
numpy arithmetic is embedded per particle: each line of `update()`
becomes a real-valued definition, and the array update becomes a map
over the list of (position, velocity) pairs.  Floats are modelled as
real numbers; the unseeded `np.random.rand` draws are modelled as
explicit sample streams `u1 u2 : ℕ → ℝ` supplied to the constructor.
-/

open Real

/-- State of the simulator: mirrors the attributes set in
`HarmonicExplorer.__init__` (`self.p_radial`, `self.p_tangential`,
`self.N`, `self.damping`, `self.dt`, `self.base_freq`,
`self.force_amplitude`, `self.t`, `self.positions`, `self.velocities`). -/
structure HarmonicExplorer where
  p_radial : ℤ
  p_tangential : ℤ
  N : ℕ
  damping : ℝ
  dt : ℝ
  base_freq : ℝ
  force_amplitude : ℝ
  t : ℝ
  positions : List (ℝ × ℝ)
  velocities : List (ℝ × ℝ)

/-- Embedding of `np.arctan2 y x`: the argument of the complex number
`x + i y`, which is `0` at the origin, matching numpy. -/
noncomputable def atan2 (y x : ℝ) : ℝ := Complex.arg ⟨x, y⟩

/-- Embedding of `_initialize_particles`:
`r = np.sqrt(np.random.rand(N)) * 3`, `theta = 2 * np.pi * np.random.rand(N)`,
`positions = np.array([r * np.cos(theta), r * np.sin(theta)]).T`,
with the two `rand` arrays given by sample streams `u1`, `u2`. -/
noncomputable def initialize_particles (N : ℕ) (u1 u2 : ℕ → ℝ) : List (ℝ × ℝ) :=
  (List.range N).map fun i =>
    (Real.sqrt (u1 i) * 3 * Real.cos (2 * Real.pi * u2 i),
     Real.sqrt (u1 i) * 3 * Real.sin (2 * Real.pi * u2 i))

/-- Embedding of `HarmonicExplorer.__init__`: stores the arguments and the
hardcoded constants `dt = 0.01`, `base_freq = 0.1`, `force_amplitude = 1.0`,
`t = 0.0`, then samples the particle cloud (`velocities = np.zeros_like`).
The Python constructor performs no validation of its arguments. -/
noncomputable def HarmonicExplorer.init (p_radial p_tangential : ℤ)
    (num_particles : ℕ) (damping_factor : ℝ) (u1 u2 : ℕ → ℝ) : HarmonicExplorer :=
  { p_radial := p_radial
    p_tangential := p_tangential
    N := num_particles
    damping := damping_factor
    dt := 0.01
    base_freq := 0.1
    force_amplitude := 1.0
    t := 0.0
    positions := initialize_particles num_particles u1 u2
    velocities := List.replicate num_particles (0, 0) }

/-- Embedding of `r = np.sqrt(x**2 + y**2); r[r == 0] = 1e-9`:
the radius actually used for the unit vectors, with the zero sentinel. -/
noncomputable def radius_used (x y : ℝ) : ℝ :=
  if Real.sqrt (x ^ 2 + y ^ 2) = 0 then 1e-9 else Real.sqrt (x ^ 2 + y ^ 2)

/-- Embedding of
`F_radial_mag = force_amplitude * np.sin(2*np.pi*p_radial*base_freq*t) * np.cos(p_tangential*theta)`. -/
noncomputable def F_radial_mag (s : HarmonicExplorer) (theta : ℝ) : ℝ :=
  s.force_amplitude * Real.sin (2 * Real.pi * (s.p_radial : ℝ) * s.base_freq * s.t) *
    Real.cos ((s.p_tangential : ℝ) * theta)

/-- Embedding of
`F_tangential_mag = force_amplitude * np.cos(2*np.pi*p_tangential*base_freq*t)`. -/
noncomputable def F_tangential_mag (s : HarmonicExplorer) : ℝ :=
  s.force_amplitude * Real.cos (2 * Real.pi * (s.p_tangential : ℝ) * s.base_freq * s.t)

/-- Embedding of steps 1-3 of `update()` for one particle at `(x, y)`:
`r_hat = (x/r, y/r)`, `t_hat = (-y/r, x/r)`,
`force = (r_hat_x * F_radial_mag + t_hat_x * F_tangential_mag,
          r_hat_y * F_radial_mag + t_hat_y * F_tangential_mag)`. -/
noncomputable def force_on (s : HarmonicExplorer) (x y : ℝ) : ℝ × ℝ :=
  let r := radius_used x y
  let theta := atan2 y x
  (x / r * F_radial_mag s theta + -y / r * F_tangential_mag s,
   y / r * F_radial_mag s theta + x / r * F_tangential_mag s)

/-- Embedding of step 4 of `update()` for one particle:
`velocities *= damping; velocities += forces * dt; positions += velocities * dt`,
returning the new (position, velocity) pair. -/
noncomputable def updateParticle (s : HarmonicExplorer)
    (p : (ℝ × ℝ) × (ℝ × ℝ)) : (ℝ × ℝ) × (ℝ × ℝ) :=
  let f := force_on s p.1.1 p.1.2
  let vx := p.2.1 * s.damping + f.1 * s.dt
  let vy := p.2.2 * s.damping + f.2 * s.dt
  ((p.1.1 + vx * s.dt, p.1.2 + vy * s.dt), (vx, vy))

/-- Embedding of `HarmonicExplorer.update`: apply `updateParticle` to every
particle, then `t += dt`, and return the new state together with the
returned `positions` array. -/
noncomputable def HarmonicExplorer.update (s : HarmonicExplorer) :
    HarmonicExplorer × List (ℝ × ℝ) :=
  let newParticles := (s.positions.zip s.velocities).map (updateParticle s)
  ({ s with
      positions := newParticles.map Prod.fst
      velocities := newParticles.map Prod.snd
      t := s.t + s.dt },
   newParticles.map Prod.fst)

/-- Iterated calls to `update()`, keeping the state. -/
noncomputable def HarmonicExplorer.run (s : HarmonicExplorer) : ℕ → HarmonicExplorer
  | 0 => s
  | k + 1 => (HarmonicExplorer.run s k).update.1

/-! Helper lemmas shared by several claims. -/

/-- Composed force on a particle sitting exactly at the origin is zero:
both numerators `x` and `y` vanish, so every quotient by the sentinel
radius is zero. -/
lemma force_on_origin (s : HarmonicExplorer) : force_on s 0 0 = (0, 0) := by
  simp [force_on]

/-- A particle at the origin with zero velocity is a fixed point of the
per-particle update. -/
lemma updateParticle_origin (s : HarmonicExplorer) :
    updateParticle s ((0, 0), (0, 0)) = ((0, 0), (0, 0)) := by
  simp [updateParticle, force_on_origin]

/-- Indexing a zip when both lists have an entry at `i`. -/
lemma getElem?_zip_eq_some {α β : Type} {l1 : List α} {l2 : List β} {i : ℕ}
    {a : α} {b : β} (h1 : l1[i]? = some a) (h2 : l2[i]? = some b) :
    (l1.zip l2)[i]? = some (a, b) := by
  induction l1 generalizing l2 i with
  | nil => simp at h1
  | cons x xs ih =>
    cases l2 with
    | nil => simp at h2
    | cons y ys =>
      cases i with
      | zero => simp_all
      | succ n =>
        simp only [List.zip_cons_cons, List.getElem?_cons_succ] at h1 h2 ⊢
        exact ih h1 h2

/-- One `update()` call keeps an origin-at-rest particle at the origin. -/
lemma update_preserves_origin (s : HarmonicExplorer) (i : ℕ)
    (hp : s.positions[i]? = some (0, 0)) (hv : s.velocities[i]? = some (0, 0)) :
    s.update.1.positions[i]? = some (0, 0) ∧
      s.update.1.velocities[i]? = some (0, 0) := by
  have hz := getElem?_zip_eq_some hp hv
  constructor <;>
  · simp only [HarmonicExplorer.update, List.getElem?_map, hz, Option.map_some',
      updateParticle_origin]

/-! Claim theorems. -/

/-- C1: in every `update()` call the scalar force magnitudes are
`F_radial = force_amplitude * sin(2*pi*p_radial*base_frequency*t) * cos(p_tangential*theta)`
with `theta = atan2 y x` and `t` the clock before the call, and
`F_tangential = force_amplitude * cos(2*pi*p_tangential*base_frequency*t)`;
the single value `Ft`, chosen before quantifying over particles, is the
tangential magnitude used for every particle, so it is identical across
particles within one call. -/
theorem C1_force_magnitudes (s : HarmonicExplorer) :
    ∃ Ft : ℝ,
      Ft = s.force_amplitude *
          Real.cos (2 * Real.pi * (s.p_tangential : ℝ) * s.base_freq * s.t) ∧
      ∀ x y : ℝ,
        force_on s x y =
          (x / radius_used x y *
              (s.force_amplitude *
                Real.sin (2 * Real.pi * (s.p_radial : ℝ) * s.base_freq * s.t) *
                Real.cos ((s.p_tangential : ℝ) * atan2 y x)) +
            -y / radius_used x y * Ft,
           y / radius_used x y *
              (s.force_amplitude *
                Real.sin (2 * Real.pi * (s.p_radial : ℝ) * s.base_freq * s.t) *
                Real.cos ((s.p_tangential : ℝ) * atan2 y x)) +
            x / radius_used x y * Ft) :=
  ⟨F_tangential_mag s, rfl, fun _ _ => rfl⟩

/-- C2: integration is semi-implicit Euler in exactly the order damping,
force accumulation, position step: `v2 = v * damping + F * dt` and the new
position is `p + v2 * dt`, using the already-updated velocity, where
`F = F_radial * (x/r, y/r) + F_tangential * (-y/r, x/r)`. -/
theorem C2_integration_order (s : HarmonicExplorer) (x y vx vy : ℝ) :
    updateParticle s ((x, y), (vx, vy)) =
      ((x + (vx * s.damping +
              (F_radial_mag s (atan2 y x) * (x / radius_used x y) +
               F_tangential_mag s * (-y / radius_used x y)) * s.dt) * s.dt,
        y + (vy * s.damping +
              (F_radial_mag s (atan2 y x) * (y / radius_used x y) +
               F_tangential_mag s * (x / radius_used x y)) * s.dt) * s.dt),
       (vx * s.damping +
          (F_radial_mag s (atan2 y x) * (x / radius_used x y) +
           F_tangential_mag s * (-y / radius_used x y)) * s.dt,
        vy * s.damping +
          (F_radial_mag s (atan2 y x) * (y / radius_used x y) +
           F_tangential_mag s * (x / radius_used x y)) * s.dt)) := by
  simp only [updateParticle, force_on, Prod.mk.injEq]
  refine ⟨⟨by ring, by ring⟩, by ring, by ring⟩

/-- C5: for a particle at exactly `(0,0)` the radius used for the unit
vectors is the sentinel `1e-9` (the guard fires, no division by zero),
and the returned position is the explicit finite real value
`(vx * damping * dt, vy * damping * dt)`. -/
theorem C5_origin_sentinel (s : HarmonicExplorer) (vx vy : ℝ) :
    radius_used 0 0 = 1e-9 ∧
    (updateParticle s ((0, 0), (vx, vy))).1 =
      (vx * s.damping * s.dt, vy * s.damping * s.dt) := by
  constructor
  · simp [radius_used]
  · simp [updateParticle, force_on_origin]

/-- C10: a particle at the origin sees zero radial and tangential unit
vectors after the sentinel substitution, hence zero composed force, and
an origin particle with zero velocity stays at the origin (with zero
velocity) after every number `k` of `update()` calls. -/
theorem C10_origin_fixed (s : HarmonicExplorer) (i k : ℕ)
    (hp : s.positions[i]? = some (0, 0)) (hv : s.velocities[i]? = some (0, 0)) :
    ((0 : ℝ) / radius_used 0 0, (0 : ℝ) / radius_used 0 0) = ((0 : ℝ), (0 : ℝ)) ∧
    (-(0 : ℝ) / radius_used 0 0, (0 : ℝ) / radius_used 0 0) = ((0 : ℝ), (0 : ℝ)) ∧
    force_on s 0 0 = (0, 0) ∧
    (s.run k).positions[i]? = some (0, 0) ∧
    (s.run k).velocities[i]? = some (0, 0) := by
  refine ⟨by simp, by simp, force_on_origin s, ?_⟩
  induction k with
  | zero => exact ⟨hp, hv⟩
  | succ n ih => exact update_preserves_origin _ i ih.1 ih.2

/-- Concrete one-particle state used to witness the origin claims. -/
noncomputable def originState : HarmonicExplorer :=
  { p_radial := 8
    p_tangential := 8
    N := 1
    damping := 0.98
    dt := 0.01
    base_freq := 0.1
    force_amplitude := 1.0
    t := 0.0
    positions := [(0, 0)]
    velocities := [(0, 0)] }

/-- C10 witness: the origin fixed-point theorem applied to a concrete
one-particle simulator, at index `0`, for `3` update calls. -/
theorem C10_origin_fixed_witness :
    ((0 : ℝ) / radius_used 0 0, (0 : ℝ) / radius_used 0 0) = ((0 : ℝ), (0 : ℝ)) ∧
    (-(0 : ℝ) / radius_used 0 0, (0 : ℝ) / radius_used 0 0) = ((0 : ℝ), (0 : ℝ)) ∧
    force_on originState 0 0 = (0, 0) ∧
    (originState.run 3).positions[0]? = some (0, 0) ∧
    (originState.run 3).velocities[0]? = some (0, 0) :=
  C10_origin_fixed originState 0 3 rfl rfl

/-- The step of `run` keeps `dt` unchanged. -/
lemma run_dt (s : HarmonicExplorer) (k : ℕ) : (s.run k).dt = s.dt := by
  induction k with
  | zero => rfl
  | succ n ih => simp [HarmonicExplorer.run, HarmonicExplorer.update, ih]

/-- After `k` update calls the clock is `t + k * dt`. -/
lemma run_t (s : HarmonicExplorer) (k : ℕ) : (s.run k).t = s.t + k * s.dt := by
  induction k with
  | zero => simp [HarmonicExplorer.run]
  | succ n ih =>
    have hdt := run_dt s n
    simp only [HarmonicExplorer.run, HarmonicExplorer.update, ih, hdt]
    push_cast
    ring

/-- C4 counterexample: construction with `particle_count = 0` and
`damping_factor = 2` (both invalid per the claim) does not fail: it
produces a simulator, with an empty particle cloud, the out-of-range
damping factor stored, and the clock at `0`.  The Python constructor
contains no validation at all. -/
theorem C4_no_validation_counterexample :
    (HarmonicExplorer.init 8 8 0 2 (fun _ => 0) (fun _ => 0)).N = 0 ∧
    (HarmonicExplorer.init 8 8 0 2 (fun _ => 0) (fun _ => 0)).damping = 2 ∧
    (HarmonicExplorer.init 8 8 0 2 (fun _ => 0) (fun _ => 0)).positions = [] ∧
    (HarmonicExplorer.init 8 8 0 2 (fun _ => 0) (fun _ => 0)).t = 0 := by
  refine ⟨rfl, rfl, ?_, by norm_num [HarmonicExplorer.init]⟩
  simp [HarmonicExplorer.init, initialize_particles]

/-- C4 amended: construction never fails and performs no validation:
for every harmonic ratio, nonnegative particle count and damping factor
(`time_step` is not configurable: it is hardcoded to `0.01`, as are
`base_freq = 0.1` and `force_amplitude = 1.0`), a simulator is produced
with exactly that many particles and velocities, the given damping
factor, and clock `0`. -/
theorem C4_construction_total (p q : ℤ) (n : ℕ) (d : ℝ) (u1 u2 : ℕ → ℝ) :
    (HarmonicExplorer.init p q n d u1 u2).N = n ∧
    (HarmonicExplorer.init p q n d u1 u2).damping = d ∧
    (HarmonicExplorer.init p q n d u1 u2).dt = 0.01 ∧
    (HarmonicExplorer.init p q n d u1 u2).base_freq = 0.1 ∧
    (HarmonicExplorer.init p q n d u1 u2).force_amplitude = 1 ∧
    (HarmonicExplorer.init p q n d u1 u2).t = 0 ∧
    (HarmonicExplorer.init p q n d u1 u2).positions.length = n ∧
    (HarmonicExplorer.init p q n d u1 u2).velocities.length = n := by
  refine ⟨rfl, rfl, rfl, rfl, by norm_num [HarmonicExplorer.init],
    by norm_num [HarmonicExplorer.init], ?_, ?_⟩
  · simp [HarmonicExplorer.init, initialize_particles]
  · simp [HarmonicExplorer.init]

/-- C6: the clock starts at `0` at construction, each `update()` call adds
exactly the hardcoded `time_step = 0.01` once (independently of the number
of particles), after `k` calls `t = k * 0.01` exactly, and the clock
strictly increases from each call to the next (never decreases, never
resets). -/
theorem C6_clock (p q : ℤ) (n : ℕ) (d : ℝ) (u1 u2 : ℕ → ℝ) (k : ℕ) :
    (HarmonicExplorer.init p q n d u1 u2).t = 0 ∧
    ((HarmonicExplorer.init p q n d u1 u2).run k).update.1.t =
      ((HarmonicExplorer.init p q n d u1 u2).run k).t + 0.01 ∧
    ((HarmonicExplorer.init p q n d u1 u2).run k).t = k * 0.01 ∧
    ((HarmonicExplorer.init p q n d u1 u2).run k).t <
      ((HarmonicExplorer.init p q n d u1 u2).run (k + 1)).t := by
  set s := HarmonicExplorer.init p q n d u1 u2 with hs
  have ht0 : s.t = 0 := by norm_num [hs, HarmonicExplorer.init]
  have hdt : s.dt = 0.01 := rfl
  have hk : (s.run k).t = k * 0.01 := by
    rw [run_t, ht0, hdt]; ring
  have hk1 : (s.run (k + 1)).t = (k + 1 : ℕ) * 0.01 := by
    rw [run_t, ht0, hdt]; ring
  refine ⟨ht0, ?_, hk, ?_⟩
  · show (s.run k).t + (s.run k).dt = (s.run k).t + 0.01
    rw [run_dt, hdt]
  · rw [hk, hk1]
    push_cast
    nlinarith [Nat.cast_nonneg (α := ℝ) k]

/-- C7: for every particle count and every outcome of the uniform samples
`u1 i ∈ [0,1)`, initialization produces exactly `particle_count` particles,
each initial position lies in the disk of radius `3` about the origin, and
every initial velocity is exactly `(0, 0)`. -/
theorem C7_initialization (p q : ℤ) (n : ℕ) (d : ℝ) (u1 u2 : ℕ → ℝ)
    (h : ∀ i, 0 ≤ u1 i ∧ u1 i < 1) :
    (initialize_particles n u1 u2).length = n ∧
    (∀ pt ∈ initialize_particles n u1 u2,
      Real.sqrt (pt.1 ^ 2 + pt.2 ^ 2) ≤ 3) ∧
    ∀ v ∈ (HarmonicExplorer.init p q n d u1 u2).velocities, v = (0, 0) := by
  refine ⟨by simp [initialize_particles], ?_, ?_⟩
  · intro pt hpt
    simp only [initialize_particles, List.mem_map, List.mem_range] at hpt
    obtain ⟨i, _, rfl⟩ := hpt
    have h0 := (h i).1
    have h1 := (h i).2
    have hc : Real.cos (2 * Real.pi * u2 i) ^ 2 +
        Real.sin (2 * Real.pi * u2 i) ^ 2 = 1 := Real.cos_sq_add_sin_sq _
    have hsqrtsq : Real.sqrt (u1 i) ^ 2 = u1 i := Real.sq_sqrt h0
    have hsum : (Real.sqrt (u1 i) * 3 * Real.cos (2 * Real.pi * u2 i)) ^ 2 +
        (Real.sqrt (u1 i) * 3 * Real.sin (2 * Real.pi * u2 i)) ^ 2 = 9 * u1 i := by
      calc (Real.sqrt (u1 i) * 3 * Real.cos (2 * Real.pi * u2 i)) ^ 2 +
          (Real.sqrt (u1 i) * 3 * Real.sin (2 * Real.pi * u2 i)) ^ 2
          = 9 * Real.sqrt (u1 i) ^ 2 *
              (Real.cos (2 * Real.pi * u2 i) ^ 2 +
               Real.sin (2 * Real.pi * u2 i) ^ 2) := by ring
        _ = 9 * u1 i := by rw [hc, hsqrtsq]; ring
    rw [hsum]
    calc Real.sqrt (9 * u1 i) ≤ Real.sqrt 9 := Real.sqrt_le_sqrt (by nlinarith)
      _ = 3 := by
          rw [show (9 : ℝ) = 3 ^ 2 by norm_num, Real.sqrt_sq (by norm_num)]
  · intro v hv
    simp only [HarmonicExplorer.init] at hv
    exact List.eq_of_mem_replicate hv

/-- C7 witness: the initialization theorem applied to two particles with
uniform samples `u1 = 1/4`, `u2 = 0`. -/
theorem C7_initialization_witness :
    (initialize_particles 2 (fun _ => 1 / 4) (fun _ => 0)).length = 2 ∧
    (∀ pt ∈ initialize_particles 2 (fun _ => 1 / 4) (fun _ => 0),
      Real.sqrt (pt.1 ^ 2 + pt.2 ^ 2) ≤ 3) ∧
    ∀ v ∈ (HarmonicExplorer.init 8 8 2 0.98 (fun _ => 1 / 4)
        (fun _ => 0)).velocities, v = (0, 0) :=
  C7_initialization 8 8 2 0.98 (fun _ => 1 / 4) (fun _ => 0)
    (fun _ => by norm_num)

/-- C8: when `force_amplitude = 0`, one `update()` call multiplies each
velocity component of a particle by exactly `damping_factor`; with
`0 < damping_factor < 1` the absolute value of each velocity component
does not increase, so repeated calls drive velocities toward zero. -/
theorem C8_zero_amplitude_damping (s : HarmonicExplorer) (x y vx vy : ℝ)
    (hamp : s.force_amplitude = 0) (hd0 : 0 < s.damping) (hd1 : s.damping < 1) :
    (updateParticle s ((x, y), (vx, vy))).2 = (vx * s.damping, vy * s.damping) ∧
    |(updateParticle s ((x, y), (vx, vy))).2.1| ≤ |vx| ∧
    |(updateParticle s ((x, y), (vx, vy))).2.2| ≤ |vy| := by
  have hf : force_on s x y = (0, 0) := by
    simp [force_on, F_radial_mag, F_tangential_mag, hamp]
  have h2 : (updateParticle s ((x, y), (vx, vy))).2 =
      (vx * s.damping, vy * s.damping) := by
    simp [updateParticle, hf]
  have habs : ∀ w : ℝ, |w * s.damping| ≤ |w| := by
    intro w
    calc |w * s.damping| = |w| * |s.damping| := abs_mul _ _
      _ = |w| * s.damping := by rw [abs_of_pos hd0]
      _ ≤ |w| * 1 := by nlinarith [abs_nonneg w]
      _ = |w| := mul_one _
  refine ⟨h2, ?_, ?_⟩
  · rw [h2]
    exact habs vx
  · rw [h2]
    exact habs vy

/-- Concrete zero-amplitude state used to witness C8. -/
noncomputable def dampedState : HarmonicExplorer :=
  { p_radial := 8
    p_tangential := 8
    N := 1
    damping := 0.98
    dt := 0.01
    base_freq := 0.1
    force_amplitude := 0
    t := 0
    positions := [(1, 0)]
    velocities := [(3, 4)] }

/-- C8 witness: the damping theorem applied to a concrete zero-amplitude
simulator and a particle with velocity `(3, 4)`. -/
theorem C8_zero_amplitude_damping_witness :
    (updateParticle dampedState ((1, 0), (3, 4))).2 =
      (3 * dampedState.damping, 4 * dampedState.damping) ∧
    |(updateParticle dampedState ((1, 0), (3, 4))).2.1| ≤ |(3 : ℝ)| ∧
    |(updateParticle dampedState ((1, 0), (3, 4))).2.2| ≤ |(4 : ℝ)| :=
  C8_zero_amplitude_damping dampedState 1 0 3 4 rfl
    (by norm_num [dampedState]) (by norm_num [dampedState])

/-- C9: `update()` is deterministic given internal state: two simulators
agreeing on every configuration field, the clock, and all particle
positions and velocities return identical position arrays at every call
of any run of `update()` calls. -/
theorem C9_deterministic (s1 s2 : HarmonicExplorer)
    (h1 : s1.p_radial = s2.p_radial) (h2 : s1.p_tangential = s2.p_tangential)
    (h3 : s1.N = s2.N) (h4 : s1.damping = s2.damping) (h5 : s1.dt = s2.dt)
    (h6 : s1.base_freq = s2.base_freq)
    (h7 : s1.force_amplitude = s2.force_amplitude) (h8 : s1.t = s2.t)
    (h9 : s1.positions = s2.positions) (h10 : s1.velocities = s2.velocities) :
    ∀ j : ℕ, (s1.run j).update.2 = (s2.run j).update.2 := by
  have hs : s1 = s2 := by
    cases s1
    cases s2
    simp_all
  rw [hs]
  intro _
  rfl

/-- First copy of a concrete simulator state for the determinism witness. -/
noncomputable def detState1 : HarmonicExplorer :=
  { p_radial := 3
    p_tangential := 5
    N := 1
    damping := 0.98
    dt := 0.01
    base_freq := 0.1
    force_amplitude := 1.0
    t := 0.0
    positions := [(1, 2)]
    velocities := [(0, 0)] }

/-- Second, separately defined copy with the same field values. -/
noncomputable def detState2 : HarmonicExplorer :=
  { p_radial := 3
    p_tangential := 5
    N := 1
    damping := 0.98
    dt := 0.01
    base_freq := 0.1
    force_amplitude := 1.0
    t := 0.0
    positions := [(1, 2)]
    velocities := [(0, 0)] }

/-- C9 witness: determinism applied to the two separately constructed
states, at the fifth `update()` call. -/
theorem C9_deterministic_witness :
    (detState1.run 5).update.2 = (detState2.run 5).update.2 :=
  C9_deterministic detState1 detState2 rfl rfl rfl rfl rfl rfl rfl rfl rfl rfl 5

/-- Concrete state of the reference scenario: harmonic ratio `8:8`, one
particle at `(1, 0)` with zero velocity, clock `0`, and the code's
constants `damping = 0.98`, `dt = 0.01`, `base_freq = 0.1`,
`force_amplitude = 1`. -/
noncomputable def scenarioState : HarmonicExplorer :=
  { p_radial := 8
    p_tangential := 8
    N := 1
    damping := 0.98
    dt := 0.01
    base_freq := 0.1
    force_amplitude := 1.0
    t := 0.0
    positions := [(1, 0)]
    velocities := [(0, 0)] }

/-- Single-particle `update()` computation, expressed through
`updateParticle`. -/
lemma update_single (s : HarmonicExplorer) (p v : ℝ × ℝ)
    (hp : s.positions = [p]) (hv : s.velocities = [v]) :
    s.update.2 = [(updateParticle s (p, v)).1] ∧
    s.update.1.velocities = [(updateParticle s (p, v)).2] ∧
    s.update.1.t = s.t + s.dt := by
  refine ⟨?_, ?_, rfl⟩ <;> simp [HarmonicExplorer.update, hp, hv]

/-- C3: in the reference scenario the first `update()` call returns the
position array `[(1, 0.0001)]`, leaves the particle velocity at
`(0, 0.01)`, and sets the clock to `0.01` — here proved as exact real
equalities, which is stronger than the `1e-9` tolerance the claim allows. -/
theorem C3_reference_trajectory :
    scenarioState.update.2 = [(1, 0.0001)] ∧
    scenarioState.update.1.velocities = [(0, 0.01)] ∧
    scenarioState.update.1.t = 0.01 := by
  have harg : atan2 0 1 = 0 := by
    have h1 : (⟨1, 0⟩ : ℂ) = 1 := Complex.ext rfl rfl
    rw [atan2, h1, Complex.arg_one]
  have hr : radius_used 1 0 = 1 := by
    norm_num [radius_used]
  have ht : scenarioState.t = 0 := by norm_num [scenarioState]
  have hFr : F_radial_mag scenarioState 0 = 0 := by
    rw [F_radial_mag, ht]
    norm_num
  have hFt : F_tangential_mag scenarioState = 1 := by
    rw [F_tangential_mag, ht]
    norm_num [scenarioState]
  have hf : force_on scenarioState 1 0 = (0, 1) := by
    rw [force_on]
    simp only [hr, harg, hFr, hFt]
    norm_num
  have hu : updateParticle scenarioState ((1, 0), (0, 0)) =
      ((1, 0.0001), (0, 0.01)) := by
    rw [updateParticle]
    simp only [hf]
    norm_num [scenarioState]
  obtain ⟨h1, h2, h3⟩ := update_single scenarioState (1, 0) (0, 0) rfl rfl
  rw [hu] at h1 h2
  refine ⟨h1, h2, ?_⟩
  rw [h3, ht]
  norm_num [scenarioState]
